import Mathlib

/-!
Shallow embedding of `src/core/process.py` (class `ServerProcess`), a
supervisor for one externally spawned Java game-server process.

The Python class is stateful and asynchronous.  We embed it as a pure
state machine: the mutable object state becomes the structure
`ServerProcess`, each method becomes a function from the state (plus an
environment value resolving the nondeterminism supplied by the OS:
whether the spawn succeeds, whether the stdin pipe is broken, whether
the child exits within the stop timeout) to the result, the new state
and a trace of the externally observable effects (bytes written to the
child's stdin, waits, kills, spawn attempts).
-/

namespace JustServers

/-- UTF-8 encoding of one character, as the list of its bytes
(each a `Nat` below 256).  Models Python `str.encode()` per the
UTF-8 standard. -/
def utf8EncodeChar (c : Char) : List Nat :=
  let n := c.toNat
  if n < 0x80 then [n]
  else if n < 0x800 then
    [0xC0 ||| (n >>> 6), 0x80 ||| (n &&& 0x3F)]
  else if n < 0x10000 then
    [0xE0 ||| (n >>> 12), 0x80 ||| ((n >>> 6) &&& 0x3F), 0x80 ||| (n &&& 0x3F)]
  else
    [0xF0 ||| (n >>> 18), 0x80 ||| ((n >>> 12) &&& 0x3F),
     0x80 ||| ((n >>> 6) &&& 0x3F), 0x80 ||| (n &&& 0x3F)]

/-- UTF-8 encoding of a string: Python `s.encode()`. -/
def utf8Encode (s : String) : List Nat :=
  (s.data.map utf8EncodeChar).flatten

/-- How a standard stream of the child is redirected at spawn time
(`subprocess.PIPE` / `subprocess.STDOUT` in the source). -/
inductive Redirect where
  | pipe
  | mergeToStdout
deriving DecidableEq

/-- The full shape of a spawn request: argument list, working directory
and the redirection of the three standard streams.  Models the call
`asyncio.create_subprocess_exec(*cmd, cwd=..., stdin=..., stdout=..., stderr=...)`. -/
structure SpawnSpec where
  cmd : List String
  cwd : String
  stdinRedirect : Redirect
  stdoutRedirect : Redirect
  stderrRedirect : Redirect
deriving DecidableEq

/-- Externally observable effects of the supervisor's methods. -/
inductive Effect where
  /-- The call `asyncio.create_subprocess_exec` was made with this spec
  (recorded whether or not the spawn succeeded). -/
  | spawnTried (spec : SpawnSpec)
  /-- These bytes were written to the child's stdin pipe
  (`self.process.stdin.write`). -/
  | writeStdin (bytes : List Nat)
  /-- The stdin pipe was flushed (`await self.process.stdin.drain()`). -/
  | drainStdin
  /-- The write or flush raised `BrokenPipeError`; the source swallows it. -/
  | writeFailedBrokenPipe
  /-- The wait `asyncio.wait_for(self.process.wait(), timeout)` returned
  before the timeout of the given number of seconds elapsed. -/
  | waitCompleted (timeoutSecs : Nat)
  /-- The wait `asyncio.wait_for(self.process.wait(), timeout)` raised
  `asyncio.TimeoutError` after the given number of seconds. -/
  | waitTimedOut (timeoutSecs : Nat)
  /-- The kill `self.process.kill()` was invoked on the process with
  this pid. -/
  | killProc (pid : Nat)
deriving DecidableEq

/-- The child-process handle (`asyncio.subprocess.Process`): its pid,
its recorded exit code (`returncode`, `none` while still running), and
whether the `stdin` / `stdout` stream objects are present (they are
`None` in Python when the stream was not redirected to a pipe). -/
structure Proc where
  pid : Nat
  returncode : Option Int
  stdinPresent : Bool
  stdoutPresent : Bool
deriving DecidableEq

/-- The supervisor state: the fields set by `ServerProcess.__init__`
plus the optional handle `self.process`. -/
structure ServerProcess where
  jar_path : String
  working_dir : String
  min_mem : String
  max_mem : String
  process : Option Proc
deriving DecidableEq

/-- Constructor `ServerProcess.__init__`: stores the configuration and sets
`self.process = None`.  (In Python `min_mem` and `max_mem` default to
"2G" and "4G"; defaults are passed explicitly here.) -/
def ServerProcess.init (jar_path working_dir min_mem max_mem : String) :
    ServerProcess :=
  { jar_path := jar_path, working_dir := working_dir,
    min_mem := min_mem, max_mem := max_mem, process := none }

/-- Property `ServerProcess.is_running`:
`self.process is not None and self.process.returncode is None`. -/
def ServerProcess.is_running (s : ServerProcess) : Bool :=
  match s.process with
  | none => false
  | some p => p.returncode.isNone

/-- Outcome of the OS-level exec performed by
`asyncio.create_subprocess_exec`.  The exec resolves and runs only the
program of the command, here the `java` runtime (argv element 0); the
configured `jar_path` is a plain further argv element that the exec
never inspects, so a missing or wrong jar cannot fail the spawn — any
error it causes surfaces only inside the child.  When the runtime
cannot be located the call raises `FileNotFoundError`; when the
runtime exists but is not executable it raises `PermissionError`;
otherwise a child with the given pid is created. -/
inductive SpawnResult where
  | fileNotFound
  | permissionDenied
  | ok (pid : Nat)
deriving DecidableEq

/-- A Python exception escaping a method's boundary to its caller. -/
inductive PyExc where
  | permissionError
deriving DecidableEq

/-- Method `ServerProcess.start`: refuses to double-spawn when `is_running`,
otherwise builds the fixed command list
`["java", "-Xms"+min_mem, "-Xmx"+max_mem, "-jar", jar_path, "nogui"]`
and spawns it in `working_dir` with stdin and stdout redirected to
pipes and stderr merged into stdout.  Returns `True` on success.  The
only exception the source catches is `FileNotFoundError`, turned into
the return value `False` with the handle left untouched; a
`PermissionError` raised by the exec (runtime present but not
executable) is NOT caught and escapes the method, modelled as
`Except.error`.  A freshly spawned process has `returncode = None`
and both pipe stream objects present. -/
def ServerProcess.start (s : ServerProcess) (res : SpawnResult) :
    Except PyExc (Bool × ServerProcess × List Effect) :=
  if s.is_running then
    .ok (false, s, [])
  else
    let spec : SpawnSpec :=
      { cmd := ["java", "-Xms" ++ s.min_mem, "-Xmx" ++ s.max_mem,
                "-jar", s.jar_path, "nogui"],
        cwd := s.working_dir,
        stdinRedirect := .pipe,
        stdoutRedirect := .pipe,
        stderrRedirect := .mergeToStdout }
    match res with
    | .fileNotFound => .ok (false, s, [.spawnTried spec])
    | .permissionDenied => .error .permissionError
    | .ok pid =>
        .ok (true,
         { s with process := some { pid := pid, returncode := none,
                                    stdinPresent := true, stdoutPresent := true } },
         [.spawnTried spec])

/-- The spawn request that `start` builds for this state. -/
def launchSpec (s : ServerProcess) : SpawnSpec :=
  { cmd := ["java", "-Xms" ++ s.min_mem, "-Xmx" ++ s.max_mem,
            "-jar", s.jar_path, "nogui"],
    cwd := s.working_dir,
    stdinRedirect := .pipe,
    stdoutRedirect := .pipe,
    stderrRedirect := .mergeToStdout }

/-- Method `ServerProcess.write_command`: a no-op when `self.process is None`
or `self.process.stdin is None`; otherwise writes the UTF-8 bytes of
`command` followed by a newline (Python builds the payload as
`command + "\n"` via an f-string) and drains.  A `BrokenPipeError`
raised by the write or the drain (`pipeBroken = true`) is caught and
swallowed, so the function always returns normally. -/
def ServerProcess.write_command (s : ServerProcess) (command : String)
    (pipeBroken : Bool) : ServerProcess × List Effect :=
  match s.process with
  | none => (s, [])
  | some p =>
    if p.stdinPresent = false then (s, [])
    else if pipeBroken then (s, [.writeFailedBrokenPipe])
    else (s, [.writeStdin (utf8Encode (command ++ "\n")), .drainStdin])

/-- Environment of one `stop` call: whether the stdin pipe breaks on
the shutdown-command write, and whether the child exits before the
30-second timeout of `asyncio.wait_for` elapses. -/
structure StopEnv where
  pipeBroken : Bool
  exitsWithinTimeout : Bool
deriving DecidableEq

/-- The timeout (in seconds) passed to `asyncio.wait_for` in
`ServerProcess.stop` (`timeout=30.0`). -/
def stopTimeoutSecs : Nat := 30

/-- Method `ServerProcess.stop`: returns at once when no handle exists; when
the handle's `returncode` is already recorded, clears the handle
without touching the stdin pipe; otherwise writes the console command
`stop` via `write_command`, waits for exit for at most 30 seconds,
kills the process if the timeout elapses first, and in either case
finally sets `self.process = None`.  Every exception that can arise on
these paths (`BrokenPipeError` inside `write_command`,
`asyncio.TimeoutError` from the wait) is caught, so the embedding is a
total function. -/
def ServerProcess.stop (s : ServerProcess) (env : StopEnv) :
    ServerProcess × List Effect :=
  match s.process with
  | none => (s, [])
  | some p =>
    match p.returncode with
    | some _ => ({ s with process := none }, [])
    | none =>
      let w := s.write_command "stop" env.pipeBroken
      if env.exitsWithinTimeout then
        ({ w.1 with process := none }, w.2 ++ [.waitCompleted stopTimeoutSecs])
      else
        ({ w.1 with process := none },
         w.2 ++ [.waitTimedOut stopTimeoutSecs, .killProc p.pid])

/-- The set of characters stripped by Python `str.strip()` with no
argument, restricted to the ASCII whitespace characters. -/
def pyIsSpace (c : Char) : Bool :=
  c == ' ' || c == '\t' || c == '\n' || c == '\x0d' ||
  c == '\x0b' || c == '\x0c'

/-- Python `str.strip()` on a character list: removes leading and
trailing whitespace. -/
def pyStripList (l : List Char) : List Char :=
  ((l.dropWhile pyIsSpace).reverse.dropWhile pyIsSpace).reverse

/-- Python `str.strip()`: removes whitespace from BOTH ends. -/
def pyStrip (s : String) : String :=
  ⟨pyStripList s.data⟩

/-- Splitting a byte/character stream the way `async for line in
reader` does (`StreamReader.readline`): each yielded chunk ends with
the newline character, except possibly the final chunk when the stream
ends without one; an empty tail yields nothing.  `acc` holds the
(reversed) characters of the line being accumulated. -/
def readLinesGo (acc : List Char) : List Char → List (List Char)
  | [] => if acc.isEmpty then [] else [acc.reverse]
  | c :: rest =>
      if c == '\n' then (acc.reverse ++ ['\n']) :: readLinesGo [] rest
      else readLinesGo (c :: acc) rest

/-- All lines of a closed stream, in arrival order. -/
def readLines (l : List Char) : List (List Char) :=
  readLinesGo [] l

/-- Method `ServerProcess.stream_logs`: produces nothing when
`self.process is None` or `self.process.stdout is None`; otherwise
iterates the stdout pipe line by line, yielding
`line.decode('utf-8').strip()` for each, in arrival order, and ends
normally at end-of-stream.  The pipe's content (everything the child
wrote before closing stdout) is modelled as the decoded text
`content`; the whole produced sequence is the returned list. -/
def ServerProcess.stream_logs (s : ServerProcess) (content : String) :
    List String :=
  match s.process with
  | none => []
  | some p =>
    if p.stdoutPresent = false then []
    else (readLines content.data).map (fun l => pyStrip ⟨l⟩)

/-- Spec-side definition, written from the spec sentence "each element
is one decoded, trailing-whitespace-trimmed line of text": trimming
whitespace from the RIGHT end only, to be compared with the source's
`str.strip()` which trims both ends. -/
def trailingTrimSpec (s : String) : String :=
  ⟨(s.data.reverse.dropWhile pyIsSpace).reverse⟩

/-- Concatenation of a list of lines, each terminated by a newline,
into the text a child would have written to its stdout. -/
def joinLines (ls : List String) : String :=
  ls.foldr (fun l acc => l ++ "\n" ++ acc) ""

/-- A sample supervisor state whose child is running, with both pipes
present: the state reached right after a successful `start`. -/
def sampleRunning : ServerProcess :=
  { jar_path := "server.jar", working_dir := "world", min_mem := "1G",
    max_mem := "2G",
    process := some { pid := 7, returncode := none,
                      stdinPresent := true, stdoutPresent := true } }

/-- A sample supervisor state whose child has already exited with
exit code 0 while the handle is still held. -/
def sampleExited : ServerProcess :=
  { sampleRunning with
    process := some { pid := 7, returncode := some 0,
                      stdinPresent := true, stdoutPresent := true } }

/-- Reading lines from a stream that starts with a newline-free line
followed by a newline: the reader yields that line (newline included)
and continues on the rest of the stream. -/
theorem readLinesGo_append_newline (l : List Char)
    (hl : ∀ c ∈ l, (c == '\n') = false) (acc rest : List Char) :
    readLinesGo acc (l ++ '\n' :: rest) =
      (acc.reverse ++ l ++ ['\n']) :: readLinesGo [] rest := by
  induction l generalizing acc with
  | nil => simp [readLinesGo]
  | cons c cs ih =>
      have hc : (c == '\n') = false := hl c (List.mem_cons_self c cs)
      have hcs : ∀ x ∈ cs, (x == '\n') = false :=
        fun x hx => hl x (List.mem_cons_of_mem c hx)
      simp [readLinesGo, hc, ih hcs (c :: acc)]

/-- Splitting the concatenation of newline-terminated, newline-free
lines recovers exactly those lines, each with its terminator. -/
theorem readLines_joinLines (lines : List String)
    (h : ∀ l ∈ lines, ∀ c ∈ l.data, (c == '\n') = false) :
    readLines (joinLines lines).data = lines.map (fun l => l.data ++ ['\n']) := by
  induction lines with
  | nil => rfl
  | cons l rest ih =>
      have hdata : (joinLines (l :: rest)).data =
          l.data ++ '\n' :: (joinLines rest).data := by
        simp [joinLines, String.data_append]
      have hl := h l (List.mem_cons_self l rest)
      have hrest : ∀ x ∈ rest, ∀ c ∈ x.data, (c == '\n') = false :=
        fun x hx => h x (List.mem_cons_of_mem l hx)
      show readLinesGo [] (joinLines (l :: rest)).data = _
      rw [hdata, readLinesGo_append_newline l.data hl [] (joinLines rest).data]
      have htail : readLinesGo [] (joinLines rest).data =
          rest.map (fun x => x.data ++ ['\n']) := ih hrest
      simp [htail]

/-- Stripping both ends of a line is unaffected by a trailing newline. -/
theorem pyStripList_append_newline (l : List Char) :
    pyStripList (l ++ ['\n']) = pyStripList l := by
  unfold pyStripList
  rw [List.dropWhile_append]
  rcases hdw : l.dropWhile pyIsSpace with _ | ⟨c, cs⟩
  · simp [pyIsSpace]
  · simp [List.reverse_append, pyIsSpace]

/-- String form of `pyStripList_append_newline`. -/
theorem pyStrip_data_append_newline (l : String) :
    pyStrip ⟨l.data ++ ['\n']⟩ = pyStrip l := by
  show (⟨pyStripList (l.data ++ ['\n'])⟩ : String) = ⟨pyStripList l.data⟩
  rw [pyStripList_append_newline]

/-- C1: when a handle exists, the child has not exited, and the stdin
pipe is present and healthy, `stop` writes exactly the
newline-terminated UTF-8 bytes of the literal console command `stop`
to the input pipe and drains it, then waits for process exit with a
30-second timeout; if the child exits in time the wait completes
normally and no further effect occurs, and if the timeout elapses
first the child is killed once (no second graceful request); in both
outcomes the handle is cleared to `none` when `stop` returns. -/
theorem stop_sends_stop_waits_thirty_then_kills (s : ServerProcess)
    (p : Proc) (env : StopEnv) (hp : s.process = some p)
    (hrc : p.returncode = none) (hstdin : p.stdinPresent = true)
    (hpipe : env.pipeBroken = false) :
    (s.stop env).1.process = none ∧
    (s.stop env).2 =
      Effect.writeStdin (utf8Encode ("stop" ++ "\n")) :: Effect.drainStdin ::
        (if env.exitsWithinTimeout then [Effect.waitCompleted 30]
         else [Effect.waitTimedOut 30, Effect.killProc p.pid]) := by
  rcases env with ⟨pb, ext⟩
  simp only at hpipe
  subst hpipe
  cases ext <;>
    simp [ServerProcess.stop, ServerProcess.write_command, hp, hrc, hstdin,
      stopTimeoutSecs]

/-- Witness for C1: a concrete running state, once with the child
exiting in time and the hypotheses discharged by `rfl`. -/
theorem stop_sends_stop_waits_thirty_then_kills_witness :
    (sampleRunning.stop ⟨false, false⟩).1.process = none ∧
    (sampleRunning.stop ⟨false, false⟩).2 =
      Effect.writeStdin (utf8Encode ("stop" ++ "\n")) :: Effect.drainStdin ::
        (if (false : Bool) then [Effect.waitCompleted 30]
         else [Effect.waitTimedOut 30, Effect.killProc 7]) :=
  stop_sends_stop_waits_thirty_then_kills sampleRunning _ ⟨false, false⟩
    rfl rfl rfl rfl

/-- C2: `is_running` is true exactly when a handle is present and no
exit code has been recorded, and it holds (as false) in the freshly
constructed state, before any `start`.  The embedding of `is_running`
is a plain function of the state, so it mutates nothing: it returns no
new `ServerProcess` and the Python property reads but never writes
`self.process`. -/
theorem is_running_iff_handle_and_no_exit :
    (∀ s : ServerProcess,
        s.is_running = true ↔ ∃ p, s.process = some p ∧ p.returncode = none) ∧
    (∀ jp wd mn mx : String,
        (ServerProcess.init jp wd mn mx).is_running = false) := by
  constructor
  · intro s
    cases hp : s.process with
    | none => simp [ServerProcess.is_running, hp]
    | some p => simp [ServerProcess.is_running, hp, Option.isNone_iff_eq_none]
  · intro jp wd mn mx
    rfl

/-- Witness for C2: the characterisation at a concrete running state
and at a concrete freshly constructed state. -/
theorem is_running_iff_handle_and_no_exit_witness :
    (sampleRunning.is_running = true ↔
      ∃ p, sampleRunning.process = some p ∧ p.returncode = none) ∧
    (ServerProcess.init "server.jar" "world" "2G" "4G").is_running = false :=
  ⟨is_running_iff_handle_and_no_exit.1 sampleRunning,
   is_running_iff_handle_and_no_exit.2 "server.jar" "world" "2G" "4G"⟩

/-- C3 counterexample: the claim fails on the code in two concrete
ways.  First, a runtime that is located but not executable makes the
exec raise `PermissionError`, which the source's
`except FileNotFoundError` does not catch, so an exception escapes
`start` instead of a `false` return.  Second, a missing configured
artifact path cannot fail the spawn at all — the exec only resolves
the runtime and passes the jar path through as an argv element — so
at the concrete state configured with "missing.jar" the spawn succeeds
and `start` returns `true`, not `false`. -/
theorem start_failure_claim_counterexample :
    (ServerProcess.init "server.jar" "world" "2G" "4G").start
        .permissionDenied = .error .permissionError ∧
    (ServerProcess.init "missing.jar" "world" "2G" "4G").start (.ok 7) =
      .ok (true,
        { ServerProcess.init "missing.jar" "world" "2G" "4G" with
          process := some { pid := 7, returncode := none,
                            stdinPresent := true, stdoutPresent := true } },
        [Effect.spawnTried
          (launchSpec (ServerProcess.init "missing.jar" "world" "2G" "4G"))]) := by
  constructor
  · rfl
  · rfl

/-- C3 (amended): the only launch failure `start` handles is the spawn
raising `FileNotFoundError` (required runtime not located): then
`start` returns `false` without throwing, the state — and hence a
still-false `is_running` — is unchanged, and no handle is retained.
A runtime that is present but not executable makes the spawn raise
`PermissionError`, which is not caught and escapes `start`'s boundary;
and the configured artifact path is never inspected by the spawn (it
is a plain argv element), so a missing artifact cannot fail the
launch: the spawn succeeds and `start` returns `true`. -/
theorem start_only_fileNotFound_handled (s : ServerProcess)
    (h : s.is_running = false) :
    (s.start .fileNotFound =
        .ok (false, s, [Effect.spawnTried (launchSpec s)]) ∧
      s.is_running = false) ∧
    s.start .permissionDenied = .error .permissionError ∧
    (∀ pid : Nat, s.start (.ok pid) =
        .ok (true,
          { s with process := some { pid := pid, returncode := none,
                                     stdinPresent := true,
                                     stdoutPresent := true } },
          [Effect.spawnTried (launchSpec s)])) := by
  refine ⟨⟨?_, h⟩, ?_, fun pid => ?_⟩ <;>
    simp [ServerProcess.start, launchSpec, h]

/-- Witness for C3 (amended): a freshly constructed supervisor
configured with a missing jar, with the conclusion's spawn
instantiated at pid 7. -/
theorem start_only_fileNotFound_handled_witness :
    ((ServerProcess.init "missing.jar" "world" "2G" "4G").start
        .fileNotFound =
        .ok (false, ServerProcess.init "missing.jar" "world" "2G" "4G",
          [Effect.spawnTried
            (launchSpec (ServerProcess.init "missing.jar" "world" "2G" "4G"))]) ∧
      (ServerProcess.init "missing.jar" "world" "2G" "4G").is_running = false) ∧
    (ServerProcess.init "missing.jar" "world" "2G" "4G").start
        .permissionDenied = .error .permissionError ∧
    (ServerProcess.init "missing.jar" "world" "2G" "4G").start (.ok 7) =
      .ok (true,
        { ServerProcess.init "missing.jar" "world" "2G" "4G" with
          process := some { pid := 7, returncode := none,
                            stdinPresent := true, stdoutPresent := true } },
        [Effect.spawnTried
          (launchSpec (ServerProcess.init "missing.jar" "world" "2G" "4G"))]) :=
  ⟨(start_only_fileNotFound_handled
      (ServerProcess.init "missing.jar" "world" "2G" "4G") rfl).1,
   (start_only_fileNotFound_handled
      (ServerProcess.init "missing.jar" "world" "2G" "4G") rfl).2.1,
   (start_only_fileNotFound_handled
      (ServerProcess.init "missing.jar" "world" "2G" "4G") rfl).2.2 7⟩

/-- C4: calling `start` while `is_running` is true returns `false`
without raising, leaves every field of the state unchanged (in
particular the very same handle, hence the same process identity), and
produces no effect at all — no spawn is even attempted. -/
theorem start_noop_when_running (s : ServerProcess) (res : SpawnResult)
    (h : s.is_running = true) :
    s.start res = .ok (false, s, []) := by
  simp [ServerProcess.start, h]

/-- Witness for C4: a concrete running state refuses a new spawn. -/
theorem start_noop_when_running_witness :
    sampleRunning.start (.ok 9) = .ok (false, sampleRunning, []) :=
  start_noop_when_running sampleRunning (.ok 9) rfl

/-- C5 counterexample: the source computes `line.decode('utf-8').strip()`,
which strips LEADING whitespace as well as trailing whitespace, so the
elements are not merely trailing-whitespace-trimmed lines as the claim
states: for the child output " A\n" the produced sequence is ["A"],
while trimming only trailing whitespace from the single line " A\n"
would give " A". -/
theorem stream_logs_not_only_trailing_trimmed :
    sampleRunning.stream_logs " A\n" = ["A"] ∧
    (readLines (String.data " A\n")).map (fun l => trailingTrimSpec ⟨l⟩) =
      [" A"] ∧
    (["A"] : List String) ≠ [" A"] := by
  decide

/-- C5 (amended): with no handle or no stdout pipe the produced
sequence is empty; otherwise, for a child that writes a sequence of
newline-terminated lines and closes its output, the produced sequence
is exactly those lines in order, each trimmed of whitespace at BOTH
ends (Python `str.strip()`), and it ends normally (the embedding
returns a finite list, not an error). -/
theorem stream_logs_yields_stripped_lines_in_order :
    (∀ (s : ServerProcess) (content : String),
        s.process = none → s.stream_logs content = []) ∧
    (∀ (s : ServerProcess) (p : Proc) (content : String),
        s.process = some p → p.stdoutPresent = false →
        s.stream_logs content = []) ∧
    (∀ (s : ServerProcess) (p : Proc) (lines : List String),
        s.process = some p → p.stdoutPresent = true →
        (∀ l ∈ lines, ∀ c ∈ l.data, (c == '\n') = false) →
        s.stream_logs (joinLines lines) = lines.map pyStrip) := by
  refine ⟨?_, ?_, ?_⟩
  · intro s content hp
    simp [ServerProcess.stream_logs, hp]
  · intro s p content hp hout
    simp [ServerProcess.stream_logs, hp, hout]
  · intro s p lines hp hout h
    simp only [ServerProcess.stream_logs, hp]
    rw [if_neg (by simp [hout])]
    rw [readLines_joinLines lines h, List.map_map]
    refine List.map_congr_left ?_
    intro l _
    show pyStrip ⟨l.data ++ ['\n']⟩ = pyStrip l
    exact pyStrip_data_append_newline l

/-- Witness for C5: a child that writes "A\nB\n" and closes output
yields exactly "A" then "B". -/
theorem stream_logs_yields_stripped_lines_in_order_witness :
    sampleRunning.stream_logs "A\nB\n" = ["A", "B"] := by
  have h := stream_logs_yields_stripped_lines_in_order.2.2 sampleRunning
      _ ["A", "B"] rfl rfl (by decide)
  have e : joinLines ["A", "B"] = "A\nB\n" := by decide
  rw [e] at h
  rw [h]
  decide

/-- C6: `write_command` is a no-op when no handle exists or the stdin
stream is absent; otherwise it writes exactly the UTF-8 bytes of the
text followed by one newline and drains the pipe; and when the pipe is
broken the `BrokenPipeError` is swallowed: the call still returns
normally (the embedding is total) with the state untouched. -/
theorem write_command_protocol :
    (∀ (s : ServerProcess) (text : String) (b : Bool),
        s.process = none → s.write_command text b = (s, [])) ∧
    (∀ (s : ServerProcess) (p : Proc) (text : String) (b : Bool),
        s.process = some p → p.stdinPresent = false →
        s.write_command text b = (s, [])) ∧
    (∀ (s : ServerProcess) (p : Proc) (text : String),
        s.process = some p → p.stdinPresent = true →
        s.write_command text false =
          (s, [.writeStdin (utf8Encode (text ++ "\n")), .drainStdin])) ∧
    (∀ (s : ServerProcess) (p : Proc) (text : String),
        s.process = some p → p.stdinPresent = true →
        s.write_command text true = (s, [.writeFailedBrokenPipe])) := by
  refine ⟨?_, ?_, ?_, ?_⟩
  · intro s text b hp
    simp [ServerProcess.write_command, hp]
  · intro s p text b hp hin
    simp [ServerProcess.write_command, hp, hin]
  · intro s p text hp hin
    simp [ServerProcess.write_command, hp, hin]
  · intro s p text hp hin
    simp [ServerProcess.write_command, hp, hin]

/-- Witness for C6: sendCommand("say hello") writes the exact bytes of
"say hello" followed by a newline (ASCII codes shown) and drains. -/
theorem write_command_protocol_witness :
    sampleRunning.write_command "say hello" false =
      (sampleRunning,
       [.writeStdin [115, 97, 121, 32, 104, 101, 108, 108, 111, 10],
        .drainStdin]) := by
  have h := write_command_protocol.2.2.1 sampleRunning _ "say hello" rfl rfl
  rw [h]
  decide

/-- C7: with no handle, `stop` is a no-op that returns normally; with a
handle whose exit code is already recorded, `stop` clears the handle
and produces no effect at all — in particular nothing is written to
the input pipe. -/
theorem stop_corpse_clears_without_write (s : ServerProcess) (env : StopEnv) :
    (s.process = none → s.stop env = (s, [])) ∧
    (∀ (p : Proc) (c : Int), s.process = some p → p.returncode = some c →
        s.stop env = ({ s with process := none }, [])) := by
  constructor
  · intro hp
    simp [ServerProcess.stop, hp]
  · intro p c hp hc
    simp [ServerProcess.stop, hp, hc]

/-- Witness for C7: a concrete state whose child exited with code 0;
`stop` clears the handle with an empty effect trace. -/
theorem stop_corpse_clears_without_write_witness :
    sampleExited.stop ⟨false, true⟩ =
      ({ sampleExited with process := none }, []) :=
  (stop_corpse_clears_without_write sampleExited ⟨false, true⟩).2 _ 0 rfl rfl

/-- C8: for every supervisor state and every environment behavior —
including a broken stdin pipe during the graceful `stop` write and a
child that never exits within the timeout — `stop` runs to completion
(the embedding is a total function, every exception on these paths
being caught in the source) and leaves the handle absent. -/
theorem stop_always_completes_not_running (s : ServerProcess)
    (env : StopEnv) : ((s.stop env).1).process = none := by
  rcases env with ⟨pb, ext⟩
  rcases hp : s.process with _ | p
  · simp [ServerProcess.stop, hp]
  · rcases p with ⟨pid, rc, sin, sout⟩
    rcases rc with _ | c
    · cases pb <;> cases ext <;> cases sin <;>
        simp [ServerProcess.stop, ServerProcess.write_command, hp]
    · simp [ServerProcess.stop, hp]

/-- C9: a successful `start` spawns exactly the fixed-shape command
list java, -Xms min_mem, -Xmx max_mem, -jar jar_path, nogui, in the
configured working directory, with stdin and stdout each redirected to
a supervisor-owned pipe and stderr merged into stdout, and retains a
fresh handle with no exit code and both pipe streams present. -/
theorem start_spawn_shape (s : ServerProcess) (pid : Nat)
    (h : s.is_running = false) :
    s.start (.ok pid) =
      .ok (true,
       { s with process := some { pid := pid, returncode := none,
                                  stdinPresent := true,
                                  stdoutPresent := true } },
       [Effect.spawnTried
          { cmd := ["java", "-Xms" ++ s.min_mem, "-Xmx" ++ s.max_mem,
                    "-jar", s.jar_path, "nogui"],
            cwd := s.working_dir,
            stdinRedirect := .pipe, stdoutRedirect := .pipe,
            stderrRedirect := .mergeToStdout }]) := by
  simp [ServerProcess.start, h]

/-- Witness for C9: a concrete fresh supervisor spawns the concrete
command list with both pipes and merged stderr. -/
theorem start_spawn_shape_witness :
    (ServerProcess.init "server.jar" "world" "2G" "4G").start (.ok 7) =
      .ok (true,
       { ServerProcess.init "server.jar" "world" "2G" "4G" with
         process := some { pid := 7, returncode := none,
                           stdinPresent := true, stdoutPresent := true } },
       [Effect.spawnTried
          { cmd := ["java", "-Xms2G", "-Xmx4G", "-jar", "server.jar",
                    "nogui"],
            cwd := "world",
            stdinRedirect := .pipe, stdoutRedirect := .pipe,
            stderrRedirect := .mergeToStdout }]) := by
  have h := start_spawn_shape
    (ServerProcess.init "server.jar" "world" "2G" "4G") 7 rfl
  rw [h]
  rfl

/-- C10: `write_command` performs no validation or escaping: for every
text, the bytes delivered are exactly the UTF-8 encoding of the text
followed by one newline, so a text with embedded newlines — such as
"say hi\nstop" — is delivered as multiple newline-terminated console
commands, the second of which is the reserved command stop. -/
theorem write_command_passes_newlines_unescaped :
    (∀ (s : ServerProcess) (p : Proc) (text : String),
        s.process = some p → p.stdinPresent = true →
        (s.write_command text false).2 =
          [Effect.writeStdin (utf8Encode (text ++ "\n")),
           Effect.drainStdin]) ∧
    utf8Encode ("say hi\nstop" ++ "\n") =
      utf8Encode "say hi\n" ++ utf8Encode "stop\n" ∧
    readLines ("say hi\nstop" ++ "\n").data =
      ["say hi\n".data, "stop\n".data] := by
  refine ⟨?_, by decide, by decide⟩
  intro s p text hp hin
  simp [ServerProcess.write_command, hp, hin]

/-- Witness for C10: sendCommand("say hi\nstop") writes the bytes of
"say hi", a newline, "stop", and a final newline in one write. -/
theorem write_command_passes_newlines_unescaped_witness :
    (sampleRunning.write_command "say hi\nstop" false).2 =
      [Effect.writeStdin
         [115, 97, 121, 32, 104, 105, 10, 115, 116, 111, 112, 10],
       Effect.drainStdin] := by
  have h := write_command_passes_newlines_unescaped.1 sampleRunning _
      "say hi\nstop" rfl rfl
  rw [h]
  decide

end JustServers
